import Mathlib

/-
Verification of the dispatch simulation engine of edmgadget (src/app.py,
function run_integrated_simulation, lines 12-122).

The engine is a per-hour loop over exact arithmetic (comparisons, min, max,
sums and products), which we embed over the rationals.  The two exogenous
signals produced with numpy trigonometry and seeded Gaussian noise —
the price smp[t] (app.py lines 21-22) and the base IT load
base_it_load[t] (line 25) — enter the loop only through their per-hour
values, so the embedding takes them as given rational sequences; any run
of the program corresponds to one choice of these sequences.  The
flexible-load schedule (lines 26-29) contains no transcendental part and
is embedded exactly.
-/

namespace EdmGadget

/-- Action labels logged by the engine: line 50 initialises the label to
the normal mode, line 58 overwrites it with the cost-saving mode and
line 64 with the high-performance mode. -/
inductive SimAction where
  | normalMode
  | costSavingMode
  | highPerfMode
deriving DecidableEq, Repr

/-- The params dictionary collected by the sidebar (app.py lines 146-165),
restricted to the keys the simulation reads. -/
structure Params where
  sim_hours : ℕ
  base_it_load_kw : ℚ
  deferrable_load_kw : ℚ
  max_process_power : ℚ
  pue_normal : ℚ
  pue_eco : ℚ
  ess_capacity_kwh : ℚ
  max_power_kw : ℚ
  buy_threshold : ℚ
  sell_threshold : ℚ
  cost_saving_threshold : ℚ

/-- Result of the per-hour load-processing decision (app.py lines 50-79):
the action label, the applied PUE, processed_it_load, and the value of
deferred_bank after the decision. -/
structure LoadDecision where
  action : SimAction
  pue : ℚ
  processed_it_load : ℚ
  deferred_bank : ℚ

/-- Result of the per-hour power-source decision (app.py lines 89-102):
soc_change and power_from_grid. -/
structure PowerDecision where
  soc_change : ℚ
  power_from_grid : ℚ

/-- The mutable loop state at the top of an iteration: deferred_bank
(line 34), the last element of soc_log (lines 37, 47, 105) and the last
element of total_cost_log (lines 39, 106-107). -/
structure EngineState where
  deferred_bank : ℚ
  soc : ℚ
  cost : ℚ

/-- The values an iteration appends to the per-hour logs
(app.py lines 109-113), together with the soc update amount of line 105. -/
structure HourOut where
  action : SimAction
  pue : ℚ
  it_load_processed : ℚ
  dc_total_load : ℚ
  soc_change : ℚ
  power_from_grid : ℚ

/-- One row of results_df (app.py lines 116-121), with one field per
column of the DataFrame in order. -/
structure ResultRow where
  hour : ℕ
  smp : ℚ
  dc_total_load : ℚ
  it_load_processed : ℚ
  grid_power : ℚ
  ess_soc : ℚ
  pue : ℚ
  cumulative_cost : ℚ
  action : SimAction

/-- Flexible-load arrival schedule (app.py lines 26-29): an all-zero array
of length sim_hours into which deferrable_load_kw is written at the index
slices [13:17] and [13+24 : 17+24].  Numpy clamps a slice to the array
length, so for a short horizon only the in-range part is written; hence
this horizon-independent function agrees with the array at every index
below the horizon. -/
def deferrable_load_schedule (d : ℚ) (t : ℕ) : ℚ :=
  if (13 ≤ t ∧ t < 17) ∨ (37 ≤ t ∧ t < 41) then d else 0

/-- The load-processing decision of one hour (app.py lines 50-79), taking
the price of the hour, the base load of the hour, and the bank value after
the arrival of the hour was added (line 54).  Policy 1 (line 57): above the
cost-saving threshold process only the base load with the eco PUE and leave
the bank alone.  Policy 2 (line 63): below the buy threshold with work
banked, drain the bank up to the spare capacity.  Policy 3 (line 73):
otherwise do the same drain with the normal label. -/
def loadDecision (p : Params) (current_smp base_t bank : ℚ) : LoadDecision :=
  if current_smp > p.cost_saving_threshold then
    { action := SimAction.costSavingMode
      pue := p.pue_eco
      processed_it_load := base_t
      deferred_bank := bank }
  else if current_smp < p.buy_threshold ∧ bank > 0 then
    let processable_load := p.max_process_power - base_t
    let processed_from_bank := min bank processable_load
    { action := SimAction.highPerfMode
      pue := p.pue_normal
      processed_it_load := base_t + processed_from_bank
      deferred_bank := bank - processed_from_bank }
  else
    let processable_load := p.max_process_power - base_t
    let processed_from_bank := min bank processable_load
    { action := SimAction.normalMode
      pue := p.pue_normal
      processed_it_load := base_t + processed_from_bank
      deferred_bank := bank - processed_from_bank }

/-- The power-source decision of one hour (app.py lines 89-102), taking the
price, the soc read at the top of the iteration (line 47) and power_needed
(line 86).  Sell branch (line 89), charge branch (line 94), serve-from-ESS
branch (line 99); Python min of three arguments is the nested binary min. -/
def powerDecision (p : Params) (current_smp current_soc power_needed : ℚ) :
    PowerDecision :=
  if current_smp > p.sell_threshold ∧ current_soc > 0 then
    let power_from_ess := min current_soc p.max_power_kw
    { soc_change := -power_from_ess
      power_from_grid := power_needed - power_from_ess }
  else if current_smp < p.buy_threshold ∧ current_soc < p.ess_capacity_kwh then
    let charge_amount := min p.max_power_kw (p.ess_capacity_kwh - current_soc)
    { soc_change := charge_amount
      power_from_grid := power_needed + charge_amount }
  else
    let power_from_ess := min current_soc (min power_needed p.max_power_kw)
    { soc_change := -power_from_ess
      power_from_grid := power_needed - power_from_ess }

/-- One iteration of the simulation loop (app.py lines 45-113): add the
arrival of the hour to the bank (line 54), take the load decision
(lines 57-79), compute cooling_load and the total DC load (lines 82-83,
with power_needed equal to the total DC load, line 86), take the power
decision (lines 89-102), and update soc (line 105) and the cumulative cost
(lines 106-107).  Returns the new loop state and the logged values. -/
def simStep (p : Params) (current_smp base_t sched_t : ℚ) (s : EngineState) :
    EngineState × HourOut :=
  let bank := s.deferred_bank + sched_t
  let ld := loadDecision p current_smp base_t bank
  let cooling_load := ld.processed_it_load * (ld.pue - 1)
  let current_dc_total_load := ld.processed_it_load + cooling_load
  let power_needed := current_dc_total_load
  let pd := powerDecision p current_smp s.soc power_needed
  ({ deferred_bank := ld.deferred_bank
     soc := s.soc + pd.soc_change
     cost := s.cost + max 0 pd.power_from_grid * current_smp
       - max 0 (-pd.power_from_grid) * current_smp },
   { action := ld.action
     pue := ld.pue
     it_load_processed := ld.processed_it_load
     dc_total_load := current_dc_total_load
     soc_change := pd.soc_change
     power_from_grid := pd.power_from_grid })

/-- Initial loop state (app.py lines 34, 37, 39): deferred_bank = 0,
soc_log = [ess_capacity_kwh / 2], total_cost_log = [0]. -/
def initState (p : Params) : EngineState :=
  { deferred_bank := 0, soc := p.ess_capacity_kwh / 2, cost := 0 }

/-- The loop state at the top of iteration t, for the given price and base
load sequences.  After t iterations deferred_bank holds its current value,
soc equals soc_log[-1] = soc_log[t], and cost equals
total_cost_log[-1] = total_cost_log[t]: each iteration appends exactly one
element to each of those two logs, which start with one element. -/
def engineState (p : Params) (smp base : ℕ → ℚ) : ℕ → EngineState
  | 0 => initState p
  | t + 1 =>
      (simStep p (smp t) (base t)
        (deferrable_load_schedule p.deferrable_load_kw t)
        (engineState p smp base t)).1

/-- The values logged by iteration t (appended to dc_total_load_log,
pue_log, it_load_processed_log, grid_power_log, actions_log, and the
arguments of the soc and cost updates). -/
def hourOut (p : Params) (smp base : ℕ → ℚ) (t : ℕ) : HourOut :=
  (simStep p (smp t) (base t)
    (deferrable_load_schedule p.deferrable_load_kw t)
    (engineState p smp base t)).2

/-- Row t of results_df (app.py lines 116-121).  The columns built from the
per-hour logs hold the value logged at iteration t.  The SoC column is
soc_log[:-1]: soc_log has sim_hours + 1 entries, entry i being the soc
after i iterations, and dropping the LAST entry leaves entry t, the soc at
the top of iteration t, i.e. before the decision of hour t.  Likewise the
cumulative-cost column is total_cost_log[:-1], whose entry t is the
cumulative cost before hour t was accounted. -/
def resultsRow (p : Params) (smp base : ℕ → ℚ) (t : ℕ) : ResultRow :=
  { hour := t
    smp := smp t
    dc_total_load := (hourOut p smp base t).dc_total_load
    it_load_processed := (hourOut p smp base t).it_load_processed
    grid_power := (hourOut p smp base t).power_from_grid
    ess_soc := (engineState p smp base t).soc
    pue := (hourOut p smp base t).pue
    cumulative_cost := (engineState p smp base t).cost
    action := (hourOut p smp base t).action }

/-- The remaining-backlog scalar returned beside the table (line 122). -/
def remainingDeferredLoad (p : Params) (smp base : ℕ → ℚ) : ℚ :=
  (engineState p smp base p.sim_hours).deferred_bank

/-- The full run output (line 122): the rows of results_df over the horizon
together with the leftover deferred_bank. -/
def runIntegratedSimulation (p : Params) (smp base : ℕ → ℚ) :
    List ResultRow × ℚ :=
  ((List.range p.sim_hours).map (resultsRow p smp base),
    remainingDeferredLoad p smp base)

/-- The bank value of hour t after the arrival was added (line 54). -/
def bankIn (p : Params) (smp base : ℕ → ℚ) (t : ℕ) : ℚ :=
  (engineState p smp base t).deferred_bank +
    deferrable_load_schedule p.deferrable_load_kw t

/-- The load decision taken at hour t. -/
def loadAt (p : Params) (smp base : ℕ → ℚ) (t : ℕ) : LoadDecision :=
  loadDecision p (smp t) (base t) (bankIn p smp base t)

/-- power_needed at hour t (lines 82-86): processed load plus cooling. -/
def powerNeededAt (p : Params) (smp base : ℕ → ℚ) (t : ℕ) : ℚ :=
  (loadAt p smp base t).processed_it_load +
    (loadAt p smp base t).processed_it_load * ((loadAt p smp base t).pue - 1)

/-- The power decision taken at hour t. -/
def powerAt (p : Params) (smp base : ℕ → ℚ) (t : ℕ) : PowerDecision :=
  powerDecision p (smp t) (engineState p smp base t).soc
    (powerNeededAt p smp base t)

/-- The default slider configuration (app.py lines 147-165): 48 hours,
base 100 kW, deferrable 80 kW, max process 250 kW, PUE 1.4 and 1.7,
ESS 200 kWh at 50 kW, thresholds 70 / 140 / 130. -/
def defaultParams : Params :=
  { sim_hours := 48
    base_it_load_kw := 100
    deferrable_load_kw := 80
    max_process_power := 250
    pue_normal := 7 / 5
    pue_eco := 17 / 10
    ess_capacity_kwh := 200
    max_power_kw := 50
    buy_threshold := 70
    sell_threshold := 140
    cost_saving_threshold := 130 }

/-- The generated arrival schedule is nonnegative when the configured
magnitude is. -/
lemma sched_nonneg (d : ℚ) (hd : 0 ≤ d) (t : ℕ) :
    0 ≤ deferrable_load_schedule d t := by
  unfold deferrable_load_schedule
  split
  · exact hd
  · exact le_refl 0

/-- Every branch of the load decision leaves the bank nonnegative: the
cost-saving branch keeps it, the other two subtract min bank headroom,
which is at most bank. -/
lemma loadDecision_bank_nonneg (p : Params) (s base_t bank : ℚ)
    (hb : 0 ≤ bank) : 0 ≤ (loadDecision p s base_t bank).deferred_bank := by
  unfold loadDecision
  split_ifs
  · exact hb
  · exact sub_nonneg.mpr (min_le_left _ _)
  · exact sub_nonneg.mpr (min_le_left _ _)

/-- With a nonnegative bank, nonnegative base load and nonnegative
processing cap, every branch of the load decision processes a nonnegative
load. -/
lemma loadDecision_processed_nonneg (p : Params) (s base_t bank : ℚ)
    (hb : 0 ≤ bank) (hbase : 0 ≤ base_t) (hmax : 0 ≤ p.max_process_power) :
    0 ≤ (loadDecision p s base_t bank).processed_it_load := by
  unfold loadDecision
  split_ifs
  · exact hbase
  · show 0 ≤ base_t + min bank (p.max_process_power - base_t)
    rcases le_total bank (p.max_process_power - base_t) with h | h
    · rw [min_eq_left h]; linarith
    · rw [min_eq_right h]; linarith
  · show 0 ≤ base_t + min bank (p.max_process_power - base_t)
    rcases le_total bank (p.max_process_power - base_t) with h | h
    · rw [min_eq_left h]; linarith
    · rw [min_eq_right h]; linarith

/-- The applied PUE is always one of the two configured values. -/
lemma loadDecision_pue_mem (p : Params) (s base_t bank : ℚ) :
    (loadDecision p s base_t bank).pue = p.pue_eco ∨
      (loadDecision p s base_t bank).pue = p.pue_normal := by
  unfold loadDecision
  split_ifs
  · exact Or.inl rfl
  · exact Or.inr rfl
  · exact Or.inr rfl

/-- Every branch of the power decision keeps the soc within
[0, ess_capacity_kwh], given a nonnegative demand and rate. -/
lemma powerDecision_soc_bounds (p : Params) (s soc pn : ℚ)
    (h0 : 0 ≤ soc) (h1 : soc ≤ p.ess_capacity_kwh) (hpn : 0 ≤ pn)
    (hmp : 0 ≤ p.max_power_kw) :
    0 ≤ soc + (powerDecision p s soc pn).soc_change ∧
      soc + (powerDecision p s soc pn).soc_change ≤ p.ess_capacity_kwh := by
  unfold powerDecision
  split_ifs with hsell hbuy
  · show 0 ≤ soc + -(min soc p.max_power_kw) ∧
      soc + -(min soc p.max_power_kw) ≤ p.ess_capacity_kwh
    constructor
    · have h2 := min_le_left soc p.max_power_kw
      linarith
    · have h2 : 0 ≤ min soc p.max_power_kw := le_min h0 hmp
      linarith
  · show 0 ≤ soc + min p.max_power_kw (p.ess_capacity_kwh - soc) ∧
      soc + min p.max_power_kw (p.ess_capacity_kwh - soc) ≤ p.ess_capacity_kwh
    have hcs : soc < p.ess_capacity_kwh := hbuy.2
    constructor
    · have h2 : 0 ≤ min p.max_power_kw (p.ess_capacity_kwh - soc) :=
        le_min hmp (by linarith)
      linarith
    · have h2 := min_le_right p.max_power_kw (p.ess_capacity_kwh - soc)
      linarith
  · show 0 ≤ soc + -(min soc (min pn p.max_power_kw)) ∧
      soc + -(min soc (min pn p.max_power_kw)) ≤ p.ess_capacity_kwh
    constructor
    · have h2 := min_le_left soc (min pn p.max_power_kw)
      linarith
    · have h2 : 0 ≤ min soc (min pn p.max_power_kw) :=
        le_min h0 (le_min hpn hmp)
      linarith

/-- Every branch of the power decision moves the soc by at most the rated
power in magnitude, given a nonnegative soc, demand and rate. -/
lemma powerDecision_change_abs (p : Params) (s soc pn : ℚ)
    (h0 : 0 ≤ soc) (hpn : 0 ≤ pn) (hmp : 0 ≤ p.max_power_kw) :
    |(powerDecision p s soc pn).soc_change| ≤ p.max_power_kw := by
  unfold powerDecision
  split_ifs with hsell hbuy
  · show |-(min soc p.max_power_kw)| ≤ p.max_power_kw
    rw [abs_neg, abs_of_nonneg (le_min h0 hmp)]
    exact min_le_right _ _
  · show |min p.max_power_kw (p.ess_capacity_kwh - soc)| ≤ p.max_power_kw
    have hcs : soc < p.ess_capacity_kwh := hbuy.2
    rw [abs_of_nonneg (le_min hmp (by linarith))]
    exact min_le_left _ _
  · show |-(min soc (min pn p.max_power_kw))| ≤ p.max_power_kw
    rw [abs_neg, abs_of_nonneg (le_min h0 (le_min hpn hmp))]
    exact le_trans (min_le_right _ _) (min_le_right _ _)

/-- The signed cost increment of lines 106-107 collapses to grid power
times price: importing pays, exporting earns, at the same price. -/
lemma max_sub_max_mul (g s : ℚ) : max 0 g * s - max 0 (-g) * s = g * s := by
  rcases le_total g 0 with h | h
  · rw [max_eq_left h, max_eq_right (neg_nonneg.mpr h)]
    ring
  · rw [max_eq_right h, max_eq_left (neg_nonpos.mpr h)]
    ring

/-- Unfolding lemma: the bank after iteration t is the bank the load
decision of hour t returns. -/
lemma engineState_succ_bank (p : Params) (smp base : ℕ → ℚ) (t : ℕ) :
    (engineState p smp base (t + 1)).deferred_bank =
      (loadAt p smp base t).deferred_bank := rfl

/-- Unfolding lemma: the soc after iteration t is the soc before it plus
the decided change (line 105). -/
lemma engineState_succ_soc (p : Params) (smp base : ℕ → ℚ) (t : ℕ) :
    (engineState p smp base (t + 1)).soc =
      (engineState p smp base t).soc + (powerAt p smp base t).soc_change := rfl

/-- Unfolding lemma: the cost after iteration t adds the signed grid
exchange of hour t valued at the price of hour t (lines 106-107). -/
lemma engineState_succ_cost (p : Params) (smp base : ℕ → ℚ) (t : ℕ) :
    (engineState p smp base (t + 1)).cost =
      (engineState p smp base t).cost
        + max 0 (powerAt p smp base t).power_from_grid * smp t
        - max 0 (-(powerAt p smp base t).power_from_grid) * smp t := rfl

/-- Unfolding lemma: the logged values of hour t in terms of the two
decisions of hour t. -/
lemma hourOut_eq (p : Params) (smp base : ℕ → ℚ) (t : ℕ) :
    hourOut p smp base t =
      { action := (loadAt p smp base t).action
        pue := (loadAt p smp base t).pue
        it_load_processed := (loadAt p smp base t).processed_it_load
        dc_total_load := powerNeededAt p smp base t
        soc_change := (powerAt p smp base t).soc_change
        power_from_grid := (powerAt p smp base t).power_from_grid } := rfl

/-- One loop iteration preserves the bank and soc invariants. -/
lemma simStep_preserves (p : Params) (s b sc : ℚ) (st : EngineState)
    (hsc : 0 ≤ sc) (hbase : 0 ≤ b) (hmaxp : 0 ≤ p.max_process_power)
    (hpn : 0 ≤ p.pue_normal) (hpe : 0 ≤ p.pue_eco)
    (hmp : 0 ≤ p.max_power_kw)
    (ib : 0 ≤ st.deferred_bank) (is0 : 0 ≤ st.soc)
    (is1 : st.soc ≤ p.ess_capacity_kwh) :
    0 ≤ (simStep p s b sc st).1.deferred_bank ∧
      0 ≤ (simStep p s b sc st).1.soc ∧
      (simStep p s b sc st).1.soc ≤ p.ess_capacity_kwh := by
  have hbank : 0 ≤ st.deferred_bank + sc := add_nonneg ib hsc
  have hproc : 0 ≤ (loadDecision p s b (st.deferred_bank + sc)).processed_it_load :=
    loadDecision_processed_nonneg p s b (st.deferred_bank + sc) hbank hbase hmaxp
  have hpue : 0 ≤ (loadDecision p s b (st.deferred_bank + sc)).pue := by
    rcases loadDecision_pue_mem p s b (st.deferred_bank + sc) with h | h
    · rw [h]; exact hpe
    · rw [h]; exact hpn
  have hpn2 : 0 ≤ (loadDecision p s b (st.deferred_bank + sc)).processed_it_load +
      (loadDecision p s b (st.deferred_bank + sc)).processed_it_load *
        ((loadDecision p s b (st.deferred_bank + sc)).pue - 1) := by
    have h2 : (loadDecision p s b (st.deferred_bank + sc)).processed_it_load +
        (loadDecision p s b (st.deferred_bank + sc)).processed_it_load *
          ((loadDecision p s b (st.deferred_bank + sc)).pue - 1) =
        (loadDecision p s b (st.deferred_bank + sc)).processed_it_load *
          (loadDecision p s b (st.deferred_bank + sc)).pue := by ring
    rw [h2]
    exact mul_nonneg hproc hpue
  have hb2 := loadDecision_bank_nonneg p s b (st.deferred_bank + sc) hbank
  have hsoc := powerDecision_soc_bounds p s st.soc
    ((loadDecision p s b (st.deferred_bank + sc)).processed_it_load +
      (loadDecision p s b (st.deferred_bank + sc)).processed_it_load *
        ((loadDecision p s b (st.deferred_bank + sc)).pue - 1))
    is0 is1 hpn2 hmp
  exact ⟨hb2, hsoc.1, hsoc.2⟩

/-- The loop invariant: for every hour the bank is nonnegative and the soc
lies in [0, ess_capacity_kwh], given a nonnegative configuration and a
nonnegative base-load sequence. -/
lemma engine_invariant (p : Params) (smp base : ℕ → ℚ)
    (hd : 0 ≤ p.deferrable_load_kw) (hbase : ∀ u, 0 ≤ base u)
    (hmaxp : 0 ≤ p.max_process_power) (hpn : 0 ≤ p.pue_normal)
    (hpe : 0 ≤ p.pue_eco) (hcap : 0 ≤ p.ess_capacity_kwh)
    (hmp : 0 ≤ p.max_power_kw) :
    ∀ t, 0 ≤ (engineState p smp base t).deferred_bank ∧
      0 ≤ (engineState p smp base t).soc ∧
      (engineState p smp base t).soc ≤ p.ess_capacity_kwh := by
  intro t
  induction t with
  | zero =>
      refine ⟨le_refl 0, ?_, ?_⟩
      · show 0 ≤ p.ess_capacity_kwh / 2
        exact div_nonneg hcap (by norm_num)
      · show p.ess_capacity_kwh / 2 ≤ p.ess_capacity_kwh
        linarith
  | succ t ih =>
      exact simStep_preserves p (smp t) (base t)
        (deferrable_load_schedule p.deferrable_load_kw t)
        (engineState p smp base t)
        (sched_nonneg p.deferrable_load_kw hd t) (hbase t) hmaxp hpn hpe hmp
        ih.1 ih.2.1 ih.2.2

/-- The bank is nonnegative at every hour whenever the configured flexible
magnitude is nonnegative; needs neither soc nor PUE assumptions. -/
lemma bank_nonneg_all (p : Params) (smp base : ℕ → ℚ)
    (hd : 0 ≤ p.deferrable_load_kw) :
    ∀ t, 0 ≤ (engineState p smp base t).deferred_bank := by
  intro t
  induction t with
  | zero => exact le_refl 0
  | succ t ih =>
      have hbank : 0 ≤ (engineState p smp base t).deferred_bank +
          deferrable_load_schedule p.deferrable_load_kw t :=
        add_nonneg ih (sched_nonneg p.deferrable_load_kw hd t)
      exact loadDecision_bank_nonneg p (smp t) (base t)
        ((engineState p smp base t).deferred_bank +
          deferrable_load_schedule p.deferrable_load_kw t) hbank

/-- C1 counterexample: with the default configuration, a price of 60 and a
base load of 100 at hour 0 (values the generator can produce at t = 0), the
engine buys 190 kW at price 60, but row 0 of the table carries cumulative
cost 0, not 0 + grid_power[0] * price[0]: the cumulative-cost column is
total_cost_log[:-1], one hour behind the claimed recurrence. -/
theorem cost_column_not_same_row :
    ¬ (resultsRow defaultParams (fun _ => 60) (fun _ => 100) 0).cumulative_cost =
      0 + (resultsRow defaultParams (fun _ => 60) (fun _ => 100) 0).grid_power *
        (resultsRow defaultParams (fun _ => 60) (fun _ => 100) 0).smp := by
  norm_num [resultsRow, hourOut, engineState, simStep, loadDecision, powerDecision,
    initState, deferrable_load_schedule, defaultParams, min_def, max_def]

/-- C1 (amended): row 0 of the cumulative-cost column is 0 and row t+1
equals row t plus grid_power[t] * price[t] (signed, so exporting earns at
the same price); equivalently, row t carries the cumulative cost after
hour t-1, i.e. before hour t, because the column is total_cost_log[:-1]. -/
theorem cumulative_cost_prev_row (p : Params) (smp base : ℕ → ℚ) (t : ℕ) :
    (resultsRow p smp base 0).cumulative_cost = 0 ∧
      (resultsRow p smp base (t + 1)).cumulative_cost =
        (resultsRow p smp base t).cumulative_cost +
          (resultsRow p smp base t).grid_power * (resultsRow p smp base t).smp := by
  constructor
  · rfl
  · show (engineState p smp base (t + 1)).cost =
      (engineState p smp base t).cost +
        (powerAt p smp base t).power_from_grid * smp t
    rw [engineState_succ_cost]
    linear_combination max_sub_max_mul (powerAt p smp base t).power_from_grid (smp t)

/-- C2 counterexample: with the default configuration, a price of 60 and a
base load of 100 at hour 0, the battery charges from 100 kWh to 150 kWh
during hour 0, yet row 0 of the table shows 100 kWh: the SoC column is
soc_log[:-1], the value carried into the hour, not the value after it. -/
theorem soc_column_not_after_hour :
    ¬ (resultsRow defaultParams (fun _ => 60) (fun _ => 100) 0).ess_soc =
      (engineState defaultParams (fun _ => 60) (fun _ => 100) 1).soc := by
  norm_num [resultsRow, hourOut, engineState, simStep, loadDecision, powerDecision,
    initState, deferrable_load_schedule, defaultParams, min_def, max_def]

/-- C2 (amended): the SoC field of row 0 is the initial half capacity, and
the SoC field of row t+1 is the SoC field of row t plus the change decided
at hour t: each row records the SoC carried into that hour (the value
after hour t-1), because the column is soc_log[:-1]. -/
theorem soc_prev_row (p : Params) (smp base : ℕ → ℚ) (t : ℕ) :
    (resultsRow p smp base 0).ess_soc = p.ess_capacity_kwh / 2 ∧
      (resultsRow p smp base (t + 1)).ess_soc =
        (resultsRow p smp base t).ess_soc + (hourOut p smp base t).soc_change :=
  ⟨rfl, rfl⟩

/-- C3: with a positive capacity and rate, and with the remaining
configuration and the base-load sequence nonnegative (true of every
configuration the sliders can produce and of the generated signals), the
soc starts at half capacity and stays within [0, ess_capacity_kwh] at every
hour: each charge is clamped by the remaining headroom and each discharge
by the current soc. -/
theorem soc_bounds (p : Params) (smp base : ℕ → ℚ)
    (hcap : 0 < p.ess_capacity_kwh) (hmp : 0 < p.max_power_kw)
    (hd : 0 ≤ p.deferrable_load_kw) (hbase : ∀ u, 0 ≤ base u)
    (hmaxp : 0 ≤ p.max_process_power) (hpn : 0 ≤ p.pue_normal)
    (hpe : 0 ≤ p.pue_eco) (t : ℕ) :
    (engineState p smp base 0).soc = p.ess_capacity_kwh / 2 ∧
      0 ≤ (engineState p smp base t).soc ∧
      (engineState p smp base t).soc ≤ p.ess_capacity_kwh := by
  have h := engine_invariant p smp base hd hbase hmaxp hpn hpe
    (le_of_lt hcap) (le_of_lt hmp) t
  exact ⟨rfl, h.2.1, h.2.2⟩

/-- Witness for soc_bounds: the default configuration with price 60 and
base load 100, evaluated after two hours. -/
theorem soc_bounds_witness :
    (engineState defaultParams (fun _ => 60) (fun _ => 100) 0).soc =
        defaultParams.ess_capacity_kwh / 2 ∧
      0 ≤ (engineState defaultParams (fun _ => 60) (fun _ => 100) 2).soc ∧
      (engineState defaultParams (fun _ => 60) (fun _ => 100) 2).soc ≤
        defaultParams.ess_capacity_kwh :=
  soc_bounds defaultParams (fun _ => 60) (fun _ => 100)
    (by norm_num [defaultParams]) (by norm_num [defaultParams])
    (by norm_num [defaultParams]) (fun u => by norm_num)
    (by norm_num [defaultParams]) (by norm_num [defaultParams])
    (by norm_num [defaultParams]) 2

/-- C4: starting from a bank of 0, with nonnegative flexible arrivals
(a nonnegative configured magnitude), the deferred bank is nonnegative
after every hour: the drained amount min bank headroom never exceeds the
bank. -/
theorem deferred_bank_nonneg (p : Params) (smp base : ℕ → ℚ)
    (hd : 0 ≤ p.deferrable_load_kw) (t : ℕ) :
    0 ≤ (engineState p smp base t).deferred_bank :=
  bank_nonneg_all p smp base hd t

/-- Witness for deferred_bank_nonneg at the default configuration after
three hours. -/
theorem deferred_bank_nonneg_witness :
    0 ≤ (engineState defaultParams (fun _ => 60) (fun _ => 100) 3).deferred_bank :=
  deferred_bank_nonneg defaultParams (fun _ => 60) (fun _ => 100)
    (by norm_num [defaultParams]) 3

/-- C5: the applied PUE recorded for hour t is pue_eco exactly when the
price of hour t exceeds the cost-saving threshold, and pue_normal
otherwise. -/
theorem pue_selection (p : Params) (smp base : ℕ → ℚ) (t : ℕ) :
    (resultsRow p smp base t).pue =
      if smp t > p.cost_saving_threshold then p.pue_eco else p.pue_normal := by
  show (loadAt p smp base t).pue =
    if smp t > p.cost_saving_threshold then p.pue_eco else p.pue_normal
  unfold loadAt loadDecision
  split_ifs <;> rfl

/-- C6: the engine is a pure function of the configuration and of the
per-hour price and base-load sequences (which are fixed once the random
seed of the noise term is fixed): two runs with identical configuration
and identical signals produce identical tables and identical leftover
backlogs. -/
theorem run_deterministic (p q : Params) (smp1 smp2 base1 base2 : ℕ → ℚ)
    (hpq : p = q) (hs : ∀ u, smp1 u = smp2 u) (hb : ∀ u, base1 u = base2 u) :
    runIntegratedSimulation p smp1 base1 = runIntegratedSimulation q smp2 base2 := by
  subst hpq
  rw [funext hs, funext hb]

/-- Witness for run_deterministic: two identical default-configuration
runs agree. -/
theorem run_deterministic_witness :
    runIntegratedSimulation defaultParams (fun _ => 60) (fun _ => 100) =
      runIntegratedSimulation defaultParams (fun _ => 60) (fun _ => 100) :=
  run_deterministic defaultParams defaultParams (fun _ => 60) (fun _ => 60)
    (fun _ => 100) (fun _ => 100) rfl (fun _ => rfl) (fun _ => rfl)

/-- C7 counterexample: hour 61 = 13 + 24 * 2 lies in the day-2 window of
the claimed every-day pattern and fits a 62-hour horizon, but the
generated schedule is 0 there, not the configured 80: the generator writes
only the two hard-coded slices [13:17] and [37:41]. -/
theorem schedule_third_day_missing :
    13 + 24 * 2 ≤ 61 ∧ 61 ≤ 16 + 24 * 2 ∧ 61 < 62 ∧
      deferrable_load_schedule 80 61 ≠ 80 := by
  refine ⟨by omega, by omega, by omega, ?_⟩
  norm_num [deferrable_load_schedule]

/-- C7 (amended): the arrival sequence equals the configured magnitude on
the windows 13 + 24k .. 16 + 24k for the two hard-coded days k = 0 and
k = 1 only, and is zero at every hour outside those two windows; the
claimed repetition for every further day does not occur. -/
theorem schedule_two_day_windows (d : ℚ) (t : ℕ) :
    ((∃ k, k ≤ 1 ∧ 13 + 24 * k ≤ t ∧ t ≤ 16 + 24 * k) →
        deferrable_load_schedule d t = d) ∧
      ((∀ k, k ≤ 1 → ¬(13 + 24 * k ≤ t ∧ t ≤ 16 + 24 * k)) →
        deferrable_load_schedule d t = 0) := by
  constructor
  · rintro ⟨k, hk, h1, h2⟩
    unfold deferrable_load_schedule
    have hwin : (13 ≤ t ∧ t < 17) ∨ (37 ≤ t ∧ t < 41) := by omega
    rw [if_pos hwin]
  · intro h
    unfold deferrable_load_schedule
    have hwin : ¬((13 ≤ t ∧ t < 17) ∨ (37 ≤ t ∧ t < 41)) := by
      have h0 := h 0 (by omega)
      have h1 := h 1 (by omega)
      omega
    rw [if_neg hwin]

/-- Witness for schedule_two_day_windows: hour 14 lies in the day-0 window
and receives the configured 80; hour 20 lies in no window and receives 0. -/
theorem schedule_two_day_windows_witness :
    deferrable_load_schedule 80 14 = 80 ∧ deferrable_load_schedule 80 20 = 0 :=
  ⟨(schedule_two_day_windows 80 14).1 ⟨0, by omega, by omega, by omega⟩,
    (schedule_two_day_windows 80 20).2 (by intro k hk; omega)⟩

/-- C8: at every hour the recorded total DC draw equals the processed IT
load times the applied PUE (exactly, in exact arithmetic): the cooling
overhead is processed times PUE minus one. -/
theorem dc_load_conservation (p : Params) (smp base : ℕ → ℚ) (t : ℕ) :
    (resultsRow p smp base t).dc_total_load =
      (resultsRow p smp base t).it_load_processed *
        (resultsRow p smp base t).pue := by
  show (hourOut p smp base t).dc_total_load =
    (hourOut p smp base t).it_load_processed * (hourOut p smp base t).pue
  rw [hourOut_eq]
  show powerNeededAt p smp base t =
    (loadAt p smp base t).processed_it_load * (loadAt p smp base t).pue
  unfold powerNeededAt
  ring

/-- C9: under the same configuration assumptions as the soc bounds, the
soc moves by at most max_power_kw in magnitude each hour: exactly one
power-source branch runs per hour and each clamps its amount by
max_power_kw. -/
theorem soc_rate_limit (p : Params) (smp base : ℕ → ℚ)
    (hcap : 0 < p.ess_capacity_kwh) (hmp : 0 < p.max_power_kw)
    (hd : 0 ≤ p.deferrable_load_kw) (hbase : ∀ u, 0 ≤ base u)
    (hmaxp : 0 ≤ p.max_process_power) (hpn : 0 ≤ p.pue_normal)
    (hpe : 0 ≤ p.pue_eco) (t : ℕ) :
    |(engineState p smp base (t + 1)).soc - (engineState p smp base t).soc| ≤
      p.max_power_kw := by
  have inv := engine_invariant p smp base hd hbase hmaxp hpn hpe
    (le_of_lt hcap) (le_of_lt hmp) t
  have hbank : 0 ≤ bankIn p smp base t :=
    add_nonneg inv.1 (sched_nonneg p.deferrable_load_kw hd t)
  have hproc : 0 ≤ (loadAt p smp base t).processed_it_load :=
    loadDecision_processed_nonneg p (smp t) (base t) (bankIn p smp base t)
      hbank (hbase t) hmaxp
  have hpue : 0 ≤ (loadAt p smp base t).pue := by
    rcases loadDecision_pue_mem p (smp t) (base t) (bankIn p smp base t) with h | h
    · show 0 ≤ (loadDecision p (smp t) (base t) (bankIn p smp base t)).pue
      rw [h]; exact hpe
    · show 0 ≤ (loadDecision p (smp t) (base t) (bankIn p smp base t)).pue
      rw [h]; exact hpn
  have hpn2 : 0 ≤ powerNeededAt p smp base t := by
    have h2 : powerNeededAt p smp base t =
        (loadAt p smp base t).processed_it_load * (loadAt p smp base t).pue := by
      unfold powerNeededAt; ring
    rw [h2]
    exact mul_nonneg hproc hpue
  have habs : |(powerAt p smp base t).soc_change| ≤ p.max_power_kw :=
    powerDecision_change_abs p (smp t) (engineState p smp base t).soc
      (powerNeededAt p smp base t) inv.2.1 hpn2 (le_of_lt hmp)
  have hstep : (engineState p smp base (t + 1)).soc -
      (engineState p smp base t).soc = (powerAt p smp base t).soc_change := by
    rw [engineState_succ_soc]; ring
  rw [hstep]
  exact habs

/-- Witness for soc_rate_limit: the default configuration charges 50 kWh
in hour 0, exactly the rated power. -/
theorem soc_rate_limit_witness :
    |(engineState defaultParams (fun _ => 60) (fun _ => 100) 1).soc -
        (engineState defaultParams (fun _ => 60) (fun _ => 100) 0).soc| ≤
      defaultParams.max_power_kw :=
  soc_rate_limit defaultParams (fun _ => 60) (fun _ => 100)
    (by norm_num [defaultParams]) (by norm_num [defaultParams])
    (by norm_num [defaultParams]) (fun u => by norm_num)
    (by norm_num [defaultParams]) (by norm_num [defaultParams])
    (by norm_num [defaultParams]) 0

/-- C10: in any hour whose price does not exceed the cost-saving threshold
(so the high-performance or the normal branch runs) and whose base load
exceeds max_process_power, the headroom is negative, min bank headroom is
the negative headroom, so the bank grows by the deficit base load minus
max_process_power on top of the arrival, and the processed load is capped
at max_process_power, below the base load. -/
theorem overload_grows_backlog (p : Params) (smp base : ℕ → ℚ)
    (hd : 0 ≤ p.deferrable_load_kw) (t : ℕ)
    (hcs : ¬ smp t > p.cost_saving_threshold)
    (hover : p.max_process_power < base t) :
    (engineState p smp base (t + 1)).deferred_bank =
        (engineState p smp base t).deferred_bank +
          deferrable_load_schedule p.deferrable_load_kw t +
          (base t - p.max_process_power) ∧
      (resultsRow p smp base t).it_load_processed = p.max_process_power ∧
      (resultsRow p smp base t).it_load_processed < base t := by
  have hbank : 0 ≤ bankIn p smp base t :=
    add_nonneg (bank_nonneg_all p smp base hd t)
      (sched_nonneg p.deferrable_load_kw hd t)
  have hmin : min (bankIn p smp base t) (p.max_process_power - base t) =
      p.max_process_power - base t :=
    min_eq_right (by linarith)
  have hbankEq : (loadAt p smp base t).deferred_bank =
      bankIn p smp base t - (p.max_process_power - base t) := by
    unfold loadAt loadDecision
    split_ifs with h1
    · show bankIn p smp base t -
          min (bankIn p smp base t) (p.max_process_power - base t) = _
      rw [hmin]
    · show bankIn p smp base t -
          min (bankIn p smp base t) (p.max_process_power - base t) = _
      rw [hmin]
  have hprocEq : (loadAt p smp base t).processed_it_load = p.max_process_power := by
    unfold loadAt loadDecision
    split_ifs with h1
    · show base t + min (bankIn p smp base t) (p.max_process_power - base t) = _
      rw [hmin]; ring
    · show base t + min (bankIn p smp base t) (p.max_process_power - base t) = _
      rw [hmin]; ring
  refine ⟨?_, ?_, ?_⟩
  · rw [engineState_succ_bank, hbankEq]
    unfold bankIn
    ring
  · show (loadAt p smp base t).processed_it_load = p.max_process_power
    exact hprocEq
  · show (loadAt p smp base t).processed_it_load < base t
    rw [hprocEq]
    exact hover

/-- Witness for overload_grows_backlog: default configuration, price 100,
base load 260 at hour 0: the bank grows from 0 to 10 with no arrival and
only 250 of the 260 kW base load is processed. -/
theorem overload_grows_backlog_witness :
    (engineState defaultParams (fun _ => 100) (fun _ => 260) 1).deferred_bank =
        (engineState defaultParams (fun _ => 100) (fun _ => 260) 0).deferred_bank +
          deferrable_load_schedule defaultParams.deferrable_load_kw 0 +
          (260 - defaultParams.max_process_power) ∧
      (resultsRow defaultParams (fun _ => 100) (fun _ => 260) 0).it_load_processed =
        defaultParams.max_process_power ∧
      (resultsRow defaultParams (fun _ => 100) (fun _ => 260) 0).it_load_processed
        < 260 :=
  overload_grows_backlog defaultParams (fun _ => 100) (fun _ => 260)
    (by norm_num [defaultParams]) 0 (by norm_num [defaultParams])
    (by norm_num [defaultParams])

end EdmGadget
